import Mathlib

/-
Verification of the in-memory disk-partitioning core of distinst
(src/src/disk/mod.rs), as a shallow embedding in Lean 4.

Machine integers (`u64`) are modelled as `Nat`; the two arithmetic sites where
overflow or underflow can actually occur in the source (`resize_partition`'s
`start + length`, `move_partition`'s end-sector computation, and the division
by `sector_size`) are modelled with checked operations that produce the
distinguished `Run.panic` outcome, matching the abort of a debug build.

Fields that the modelled operations never read or write (device paths, model
and serial strings, mount points, swap state) are omitted from the records.
-/

deriving instance DecidableEq for Except

namespace Distinst

/-- Partition-table kind (`PartitionTable` in mod.rs). -/
inductive PartitionTable where
  | Msdos
  | Gpt
  deriving DecidableEq

/-- Partition class (`PartitionType` in partitions.rs, re-exported by mod.rs). -/
inductive PartitionType where
  | Primary
  | Logical
  deriving DecidableEq

/-- File systems (`FileSystemType`); the individual variants are interchangeable
for the modelled operations. -/
inductive FileSystemType where
  | Btrfs
  | Exfat
  | Ext2
  | Ext3
  | Ext4
  | F2fs
  | Fat16
  | Fat32
  | Ntfs
  | Swap
  | Xfs
  deriving DecidableEq

/-- Partition-table flags (`libparted::PartitionFlag`); only the identity of a
flag matters to the modelled operations. -/
inductive PartitionFlag where
  | PED_PARTITION_BOOT
  | PED_PARTITION_ESP
  | PED_PARTITION_LBA
  deriving DecidableEq

/-- The variants of `DiskError` produced by the modelled (pure, in-memory)
operations.  The I/O-carrying variants of the Rust enum are not modelled. -/
inductive DiskError where
  | LayoutChanged
  | PartitionNotFound (partition : Int)
  | PartitionTableNotFound
  | PrimaryPartitionsExceeded
  | SectorOverlaps (id : Int)
  | PartitionOOB
  | ResizeTooSmall
  deriving DecidableEq

/-- One partition (`PartitionInfo` in partitions.rs).  `device_path`,
`mount_point`, `target` and `swapped` are omitted: no modelled operation
reads them. -/
structure PartitionInfo where
  active : Bool
  busy : Bool
  is_source : Bool
  remove : Bool
  format : Bool
  flags : List PartitionFlag
  start_sector : Nat
  end_sector : Nat
  filesystem : Option FileSystemType
  name : Option String
  number : Int
  part_type : PartitionType
  deriving DecidableEq

/-- A block device (`Disk` in mod.rs).  The string-valued identification
fields (`model_name`, `serial`, `device_path`, `device_type`) are omitted:
no modelled operation reads them. -/
structure Disk where
  size : Nat
  sector_size : Nat
  table_type : Option PartitionTable
  read_only : Bool
  mklabel : Bool
  partitions : List PartitionInfo
  deriving DecidableEq

/-- Outcome of running a Rust function that can abort (index/arith panic,
`unreachable!`, `unwrap` on `None`, or the differ's never-terminating inner
loop): either the abort (`panic`) or a returned value. -/
inductive Run (α : Type) where
  | panic
  | done (val : α)
  deriving DecidableEq

/-- First value past which `u64` arithmetic aborts. -/
def U64LIMIT : Nat := 2 ^ 64

/-- `u64` addition; aborts (debug build) on overflow. -/
def addU64 (a b : Nat) : Run Nat :=
  if a + b < U64LIMIT then .done (a + b) else .panic

/-- `u64` subtraction; aborts (debug build) on underflow. -/
def subU64 (a b : Nat) : Run Nat :=
  if b ≤ a then .done (a - b) else .panic

/-- Replace the first element satisfying `p` by its image under `f`; models a
mutation through the `&mut` reference returned by an `iter_mut().find`. -/
def modifyFirst (p : PartitionInfo → Bool) (f : PartitionInfo → PartitionInfo) :
    List PartitionInfo → List PartitionInfo
  | [] => []
  | x :: xs => if p x then f x :: xs else x :: modifyFirst p f xs

/-- Modelled from the spec: `PartitionInfo::is_same_partition_as` lives in
partitions.rs, which is not among the provided sources.  Per the spec it is the
identity match used by the validator: same `number` and same `start_sector`. -/
def is_same_partition_as (p other : PartitionInfo) : Bool :=
  p.number == other.number && p.start_sector == other.start_sector

/-- Modelled from the spec: `PartitionInfo::requires_changes` lives in
partitions.rs, which is not among the provided sources.  Per the spec it is
true iff any of start, end, filesystem-when-format, or flags differ. -/
def requires_changes (source other : PartitionInfo) : Bool :=
  source.start_sector != other.start_sector
    || source.end_sector != other.end_sector
    || (other.format && source.filesystem != other.filesystem)
    || source.flags != other.flags

/-- Modelled from the spec: `PartitionBuilder` lives in partitions.rs, which is
not among the provided sources.  Per the spec it carries start, end,
filesystem, a type defaulting to `Primary`, an optional name and a flag set. -/
structure PartitionBuilder where
  start_sector : Nat
  end_sector : Nat
  filesystem : FileSystemType
  part_type : PartitionType := .Primary
  name : Option String := none
  flags : List PartitionFlag := []
  deriving DecidableEq

/-- Modelled from the spec: `PartitionBuilder::build` produces a non-source
`PartitionInfo` with `number = -1`; the builder takes an exclusive end, so the
built partition's inclusive `end_sector` is `end - 1` (spec section 9, and the
unit tests of mod.rs, e.g. builder end `1_026_048` becoming create end
`1_026_047`). -/
def PartitionBuilder.build (b : PartitionBuilder) : PartitionInfo :=
  { active := false
    busy := false
    is_source := false
    remove := false
    format := true
    flags := b.flags
    start_sector := b.start_sector
    end_sector := b.end_sector - 1
    filesystem := some b.filesystem
    name := b.name
    number := -1
    part_type := b.part_type }

/-- `Disk::get_partition_type_count`: number of primary and logical
partitions, in that order. -/
def get_partition_type_count (d : Disk) : Nat × Nat :=
  d.partitions.foldl
    (fun sum part =>
      match part.part_type with
      | .Logical => (sum.1, sum.2 + 1)
      | .Primary => (sum.1 + 1, sum.2))
    (0, 0)

/-- `Disk::mklabel`: drop all partitions and request a fresh table.  The
`unmount_all_partitions` call it starts with only touches mount/swap state,
which is outside the model. -/
def mklabel (d : Disk) (kind : PartitionTable) : Disk :=
  { d with partitions := [], mklabel := true, table_type := some kind }

/-- `Disk::get_partition_mut`: the first partition with the given number.
Mutation through the returned reference is modelled with `modifyFirst`. -/
def get_partition_mut (d : Disk) (partition : Int) : Option PartitionInfo :=
  d.partitions.find? (fun part => part.number == partition)

/-- The range-conflict test shared by `Disk::overlaps_region` and
`Disk::overlaps_region_excluding` (the closure passed to their `find`). -/
def overlapsPred (start end_ : Nat) (part : PartitionInfo) : Bool :=
  !((start < part.start_sector && end_ < part.start_sector)
    || (start > part.end_sector && end_ > part.end_sector))

/-- `Disk::overlaps_region`: the number of the first non-`remove` partition
whose sector range conflicts with `[start, end_]`. -/
def overlaps_region (d : Disk) (start end_ : Nat) : Option Int :=
  ((d.partitions.filter (fun part => !part.remove)).find?
      (overlapsPred start end_)).map (fun part => part.number)

/-- `Disk::overlaps_region_excluding`: as `overlaps_region`, with partitions
numbered `exclude` left out of the search. -/
def overlaps_region_excluding (d : Disk) (start end_ : Nat) (exclude : Int) : Option Int :=
  ((d.partitions.filter (fun part => !part.remove && part.number != exclude)).find?
      (overlapsPred start end_)).map (fun part => part.number)

/-- `Disk::add_partition`: overlap check, bound check, table/quota checks,
then push of the built partition. -/
def add_partition (d : Disk) (builder : PartitionBuilder) :
    Except DiskError Unit × Disk :=
  match overlaps_region d builder.start_sector builder.end_sector with
  | some id => (.error (.SectorOverlaps id), d)
  | none =>
    if d.size < builder.end_sector then
      (.error .PartitionOOB, d)
    else
      match d.table_type with
      | some .Gpt => (.ok (), { d with partitions := d.partitions ++ [builder.build] })
      | some .Msdos =>
        let counts := get_partition_type_count d
        if builder.part_type == .Primary then
          if counts.1 == 4 || (counts.1 == 3 && counts.2 != 0) then
            (.error .PrimaryPartitionsExceeded, d)
          else
            (.ok (), { d with partitions := d.partitions ++ [builder.build] })
        else
          if counts.1 == 4 then
            (.error .PrimaryPartitionsExceeded, d)
          else
            (.ok (), { d with partitions := d.partitions ++ [builder.build] })
      | none => (.error .PartitionTableNotFound, d)

/-- `Disk::remove_partition`: find the first partition with the given number;
a source partition gets `remove := true` in place and the index sentinel `0`,
a non-source partition yields its index; afterwards the element is dropped
only when the sentinel/index is non-zero. -/
def remove_partition (d : Disk) (partition : Int) :
    Except DiskError Unit × Disk :=
  match d.partitions.enum.find? (fun ip => ip.2.number == partition) with
  | none => (.error (.PartitionNotFound partition), d)
  | some (i, p) =>
    if p.is_source then
      let parts := modifyFirst (fun q => q.number == partition)
        (fun q => { q with remove := true }) d.partitions
      (.ok (), { d with partitions := parts })
    else if i != 0 then
      (.ok (), { d with partitions := d.partitions.eraseIdx i })
    else
      (.ok (), d)

/-- `Disk::resize_partition`: reject lengths at or below 10 MiB worth of
sectors, provisionally set `end_sector := start + length` on the found
partition, then check overlaps excluding it and restore the backup end on
conflict. -/
def resize_partition (d : Disk) (partition : Int) (length : Nat) :
    Run (Except DiskError Unit × Disk) :=
  if d.sector_size == 0 then .panic
  else if length ≤ (10 * 1024 * 1024) / d.sector_size then
    .done (.error .ResizeTooSmall, d)
  else
    match get_partition_mut d partition with
    | none => .done (.error (.PartitionNotFound partition), d)
    | some part =>
      match addU64 part.start_sector length with
      | .panic => .panic
      | .done end_ =>
        let parts1 := modifyFirst (fun q => q.number == partition)
          (fun q => { q with end_sector := end_ }) d.partitions
        let d1 : Disk := { d with partitions := parts1 }
        match overlaps_region_excluding d1 part.start_sector end_ part.number with
        | some id =>
          let parts2 := modifyFirst (fun q => q.number == partition)
            (fun q => { q with end_sector := part.end_sector }) d1.partitions
          .done (.error (.SectorOverlaps id), { d1 with partitions := parts2 })
        | none => .done (.ok (), d1)

/-- `Disk::move_partition`: early success when the requested start equals the
current one; otherwise shift the end sector by the (unchecked in Rust, hence
possibly aborting) delta, check overlaps excluding the moved partition, and
commit both endpoints. -/
def move_partition (d : Disk) (partition : Int) (start : Nat) :
    Run (Except DiskError Unit × Disk) :=
  match get_partition_mut d partition with
  | none => .done (.error (.PartitionNotFound partition), d)
  | some part =>
    if start == part.start_sector then .done (.ok (), d)
    else
      match
        (if start > part.start_sector then
          addU64 part.end_sector (start - part.start_sector)
        else
          subU64 part.end_sector (part.start_sector - start)) with
      | .panic => .panic
      | .done end_ =>
        match overlaps_region_excluding d start end_ partition with
        | some id => .done (.error (.SectorOverlaps id), d)
        | none =>
          let parts := modifyFirst (fun q => q.number == partition)
            (fun q => { q with start_sector := start, end_sector := end_ }) d.partitions
          .done (.ok (), { d with partitions := parts })

/-- `Disk::format_partition`: set `format := true` and the new filesystem on
the found partition. -/
def format_partition (d : Disk) (partition : Int) (fs : FileSystemType) :
    Except DiskError Unit × Disk :=
  match get_partition_mut d partition with
  | none => (.error (.PartitionNotFound partition), d)
  | some _ =>
    let parts := modifyFirst (fun q => q.number == partition)
      (fun q => { q with format := true, filesystem := some fs }) d.partitions
    (.ok (), { d with partitions := parts })

/-- The lockstep walk inside `Disk::validate_layout`: every source partition
must be matched, in order, by the next target partition. -/
def validateSources : List PartitionInfo → List PartitionInfo → Except DiskError Unit
  | [], _ => .ok ()
  | _ :: _, [] => .error .LayoutChanged
  | source :: sources, n :: news =>
    if is_same_partition_as source n then validateSources sources news
    else .error .LayoutChanged

/-- `Disk::validate_layout`: skipped entirely when the target requests a fresh
label, otherwise the lockstep walk above. -/
def validate_layout (self new : Disk) : Except DiskError Unit :=
  if !new.mklabel then validateSources self.partitions new.partitions
  else .ok ()

/-- A queued in-place mutation (`PartitionChange` in operations.rs; its field
list is taken from the literals built in mod.rs).  The Rust field `end` is a
reserved word in Lean and is spelled `end_`. -/
structure PartitionChange where
  num : Int
  start : Nat
  end_ : Nat
  format : Option FileSystemType
  flags : List PartitionFlag
  deriving DecidableEq

/-- A queued creation (`PartitionCreate` in operations.rs; its field list is
taken from the literals built in mod.rs). -/
structure PartitionCreate where
  start_sector : Nat
  end_sector : Nat
  file_system : FileSystemType
  kind : PartitionType
  flags : List PartitionFlag
  deriving DecidableEq

/-- The differ's output (`DiskOps` in operations.rs; its field list is taken
from the literal built in mod.rs).  `device_path` is omitted along with the
other path fields. -/
structure DiskOps where
  mklabel : Option PartitionTable
  remove_partitions : List Int
  change_partitions : List PartitionChange
  create_partitions : List PartitionCreate
  deriving DecidableEq

/-- The local `flags_diff` of `Disk::diff`: flags of the target not present on
the source. -/
def flags_diff (source flags : List PartitionFlag) : List PartitionFlag :=
  flags.filter (fun f => !source.contains f)

/-- The labelled `'outer` loop of `Disk::diff`: walk sources and targets in
lockstep, queueing removals and changes; returns the unconsumed tail of the
target list.  When the target iterator runs dry with sources left, the inner
`loop` of the Rust code spins forever; that and the two `unreachable!` arms
are modelled as `panic`. -/
def diffSources : List PartitionInfo → List PartitionInfo →
    Run (List Int × List PartitionChange × List PartitionInfo)
  | [], news => .done ([], [], news)
  | _ :: _, [] => .panic
  | source :: sources, n :: news =>
    if n.is_source then
      if source.number != n.number then .panic
      else if n.remove then
        match diffSources sources news with
        | .panic => .panic
        | .done (removes, changes, rest) => .done (n.number :: removes, changes, rest)
      else if requires_changes source n then
        match diffSources sources news with
        | .panic => .panic
        | .done (removes, changes, rest) =>
          .done (removes,
            { num := source.number
              start := n.start_sector
              end_ := n.end_sector
              format := if n.format then n.filesystem else none
              flags := flags_diff source.flags n.flags } :: changes,
            rest)
      else diffSources sources news
    else .panic

/-- The trailing loop of `Disk::diff`: every remaining target partition
becomes a creation.  A leftover source partition hits `unreachable!`, and a
missing filesystem hits `Option::unwrap`; both are modelled as `panic`. -/
def diffCreates : List PartitionInfo → Run (List PartitionCreate)
  | [] => .done []
  | partition :: rest =>
    if partition.is_source then .panic
    else
      match partition.filesystem with
      | none => .panic
      | some fs =>
        match diffCreates rest with
        | .panic => .panic
        | .done creates =>
          .done ({ start_sector := partition.start_sector
                   end_sector := partition.end_sector
                   file_system := fs
                   kind := partition.part_type
                   flags := partition.flags } :: creates)

/-- `Disk::diff`: validate, then either relabel (everything in the target is a
creation) or walk the two partition lists. -/
def diff (self new : Disk) : Run (Except DiskError DiskOps) :=
  match validate_layout self new with
  | .error e => .done (.error e)
  | .ok _ =>
    if new.mklabel then
      match diffCreates new.partitions with
      | .panic => .panic
      | .done creates =>
        .done (.ok { mklabel := self.table_type
                     remove_partitions := []
                     change_partitions := []
                     create_partitions := creates })
    else
      match diffSources self.partitions new.partitions with
      | .panic => .panic
      | .done (removes, changes, rest) =>
        match diffCreates rest with
        | .panic => .panic
        | .done creates =>
          .done (.ok { mklabel := none
                       remove_partitions := removes
                       change_partitions := changes
                       create_partitions := creates })

/-- Specification-side description of the create entry `diff` emits for one
target partition.  The `getD` default is never exercised: every theorem using
`createOf` assumes the partition carries a filesystem. -/
def createOf (p : PartitionInfo) : PartitionCreate :=
  { start_sector := p.start_sector
    end_sector := p.end_sector
    file_system := p.filesystem.getD .Ext4
    kind := p.part_type
    flags := p.flags }

/-! ### Concrete instances used by witnesses and counterexamples -/

/-- A sample partition with the fields the claims care about. -/
def pSample (num : Int) (s e : Nat) (src : Bool) : PartitionInfo :=
  { active := false, busy := false, is_source := src, remove := false
    format := false, flags := [], start_sector := s, end_sector := e
    filesystem := some .Ext4, name := none, number := num, part_type := .Primary }

/-- A sample GPT disk around a given partition list (geometry of the unit
tests of mod.rs). -/
def diskOf (parts : List PartitionInfo) : Disk :=
  { size := 1953525168, sector_size := 512, table_type := some .Gpt
    read_only := false, mklabel := false, partitions := parts }

def dC1 : Disk := diskOf [pSample 1 2048 4096 true, pSample 2 10000 20000 true]

def dC1mk : Disk := { diskOf [] with mklabel := true }

def dC2 : Disk := diskOf [pSample 7 10 20 false]

def dC3 : Disk := diskOf [pSample 1 0 100 true, pSample 2 200 300 true]

def pC4 : PartitionInfo := pSample 1 2048 4096 true

def dC4 : Disk := diskOf [pC4]

def dC4after : Disk := diskOf [{ pC4 with end_sector := 2048 + 30000 }]

def pC5 : PartitionInfo := pSample 1 100 50 true

def dC5 : Disk := diskOf [pC5]

def dC6 : Disk := diskOf [pSample 1 30000 40000 true, pSample 2 60000 70000 true]

def emptyMsdos : Disk :=
  { size := 1953525168, sector_size := 512, table_type := some .Msdos
    read_only := false, mklabel := false, partitions := [] }

def pbAt (s e : Nat) (t : PartitionType) : PartitionBuilder :=
  { start_sector := s, end_sector := e, filesystem := .Ext4, part_type := t }

/-- Fold a builder list through `add_partition`, keeping the disk. -/
def addSeq (d : Disk) (bs : List PartitionBuilder) : Disk :=
  bs.foldl (fun d b => (add_partition d b).2) d

/-- Check that `add_partition` succeeds on every builder of the list in turn. -/
def addAllOk : Disk → List PartitionBuilder → Bool
  | _, [] => true
  | d, b :: bs =>
    match add_partition d b with
    | (.ok _, d') => addAllOk d' bs
    | (.error _, _) => false

def fourPrimaries : List PartitionBuilder :=
  [pbAt 10000 14000 .Primary, pbAt 20000 24000 .Primary,
   pbAt 30000 34000 .Primary, pbAt 40000 44000 .Primary]

def threePlusLogical : List PartitionBuilder :=
  [pbAt 10000 14000 .Primary, pbAt 20000 24000 .Primary,
   pbAt 30000 34000 .Primary, pbAt 40000 44000 .Logical]

def sC8 : Disk := diskOf []

def tC8bad : Disk := { diskOf [pSample 1 0 5 true] with mklabel := true }

def tC8ok : Disk := { diskOf [pSample (-1) 2048 4096 false] with mklabel := true }

def dC9 : Disk := diskOf []

def bC9 : PartitionBuilder := pbAt 2048 4096 .Primary

def dC9mk : Disk := { diskOf [] with mklabel := true }

def pC10 : PartitionInfo := pSample 1 0 100 true

def dC10 : Disk := diskOf [pC10, pSample 2 50 150 true]

/-! ### General lemmas -/

theorem find?_modifyFirst (P : PartitionInfo → Bool) (f : PartitionInfo → PartitionInfo)
    (hf : ∀ x, P (f x) = P x) :
    ∀ l : List PartitionInfo, (modifyFirst P f l).find? P = (l.find? P).map f := by
  intro l
  induction l with
  | nil => rfl
  | cons x xs ih =>
    by_cases hx : P x = true
    · simp only [modifyFirst, if_pos hx]
      rw [List.find?_cons_of_pos _ ((hf x).trans hx), List.find?_cons_of_pos _ hx]
      rfl
    · simp only [modifyFirst, if_neg hx]
      rw [List.find?_cons_of_neg _ ?hneg, List.find?_cons_of_neg _ hx]
      · exact ih
      · simpa using hx

theorem modifyFirst_restore (n : Int) (e : Nat) (p : PartitionInfo) :
    ∀ l : List PartitionInfo, l.find? (fun q => q.number == n) = some p →
      modifyFirst (fun q => q.number == n) (fun q => { q with end_sector := p.end_sector })
        (modifyFirst (fun q => q.number == n) (fun q => { q with end_sector := e }) l) = l := by
  intro l
  induction l with
  | nil => intro h; cases h
  | cons x xs ih =>
    intro hfind
    by_cases hx : (x.number == n) = true
    · rw [List.find?_cons_of_pos (p := fun (q : PartitionInfo) => q.number == n) _ hx] at hfind
      obtain rfl : x = p := Option.some.inj hfind
      simp only [modifyFirst, if_pos hx]
    · rw [List.find?_cons_of_neg (p := fun (q : PartitionInfo) => q.number == n) _ hx] at hfind
      simp only [modifyFirst, if_neg hx]
      rw [ih hfind]

theorem is_same_partition_as_refl (p : PartitionInfo) : is_same_partition_as p p = true := by
  simp [is_same_partition_as]

theorem validateSources_refl (l : List PartitionInfo) : validateSources l l = .ok () := by
  induction l with
  | nil => rfl
  | cons p l ih =>
    simp only [validateSources, if_pos (is_same_partition_as_refl p)]
    exact ih

theorem validateSources_cases (ss : List PartitionInfo) :
    ∀ ns, validateSources ss ns = .ok () ∨ validateSources ss ns = .error .LayoutChanged := by
  induction ss with
  | nil => intro ns; left; rfl
  | cons s ss ih =>
    intro ns
    cases ns with
    | nil => right; rfl
    | cons n ns =>
      simp only [validateSources]
      by_cases h : is_same_partition_as s n = true
      · rw [if_pos h]; exact ih ns
      · rw [if_neg h]; right; rfl

theorem validateSources_ok_iff (ss : List PartitionInfo) :
    ∀ ns : List PartitionInfo,
      validateSources ss ns = .ok () ↔
        ∀ i (hi : i < ss.length), ∃ hj : i < ns.length,
          is_same_partition_as (ss.get ⟨i, hi⟩) (ns.get ⟨i, hj⟩) = true := by
  induction ss with
  | nil =>
    intro ns
    simp [validateSources]
  | cons s ss ih =>
    intro ns
    cases ns with
    | nil =>
      simp only [validateSources]
      constructor
      · intro h; exact absurd h (by simp)
      · intro h
        obtain ⟨hj, -⟩ := h 0 (by simp)
        exact absurd hj (by simp)
    | cons n ns =>
      simp only [validateSources]
      by_cases hsame : is_same_partition_as s n = true
      · rw [if_pos hsame, ih ns]
        constructor
        · intro h i hi
          cases i with
          | zero => exact ⟨by simp, hsame⟩
          | succ i =>
            obtain ⟨hj, hs⟩ := h i (by simpa using hi)
            exact ⟨by simpa using hj, hs⟩
        · intro h i hi
          obtain ⟨hj, hs⟩ := h (i + 1) (by simpa using hi)
          exact ⟨by simpa using hj, hs⟩
      · rw [if_neg hsame]
        constructor
        · intro h; exact absurd h (by simp)
        · intro h
          obtain ⟨hj, hs⟩ := h 0 (by simp)
          exact absurd hs hsame

theorem overlapsPred_iff (start end_ : Nat) (p : PartitionInfo) (h : start ≤ end_) :
    overlapsPred start end_ p = true ↔ ¬(end_ < p.start_sector ∨ start > p.end_sector) := by
  simp only [overlapsPred, Bool.not_eq_true', Bool.or_eq_false_iff, Bool.and_eq_false_iff,
    decide_eq_false_iff_not, not_lt, gt_iff_lt]
  omega

theorem filter_remove_and_number (l : List PartitionInfo) (exclude : Int) :
    l.filter (fun p => !p.remove && p.number != exclude) =
      (l.filter (fun p => p.number != exclude)).filter (fun p => !p.remove) := by
  induction l with
  | nil => rfl
  | cons x xs ih =>
    cases hr : x.remove <;> cases hn : x.number == exclude <;>
      simp [List.filter_cons, hr, hn, bne, ih]

/-! ### Claim theorems -/

/-- C1: `validate_layout` succeeds unconditionally when the target requests a
fresh label; otherwise it succeeds exactly when the target list begins with a
position-wise identity match for every source partition (trailing extra
partitions permitted), its only failure is `LayoutChanged`, and a disk always
validates against a clone of itself. -/
theorem validate_layout_spec (source target : Disk) :
    (target.mklabel = true → validate_layout source target = .ok ())
    ∧ (target.mklabel = false →
        (validate_layout source target = .ok () ↔
          ∀ i (hi : i < source.partitions.length),
            ∃ hj : i < target.partitions.length,
              is_same_partition_as (source.partitions.get ⟨i, hi⟩)
                (target.partitions.get ⟨i, hj⟩) = true))
    ∧ (validate_layout source target ≠ .ok () →
        validate_layout source target = .error .LayoutChanged)
    ∧ validate_layout source source = .ok () := by
  refine ⟨?_, ?_, ?_, ?_⟩
  · intro h
    simp [validate_layout, h]
  · intro h
    simp only [validate_layout, h, Bool.not_false, if_true]
    exact validateSources_ok_iff source.partitions target.partitions
  · intro h
    by_cases hm : target.mklabel = true
    · simp [validate_layout, hm] at h
    · have hm' : target.mklabel = false := by simpa using hm
      simp only [validate_layout, hm', Bool.not_false, if_true] at h ⊢
      rcases validateSources_cases source.partitions target.partitions with h1 | h1
      · exact absurd h1 h
      · exact h1
  · by_cases hm : source.mklabel = true
    · simp [validate_layout, hm]
    · have hm' : source.mklabel = false := by simpa using hm
      simp only [validate_layout, hm', Bool.not_false, if_true]
      exact validateSources_refl source.partitions

/-- Witness for C1: a concrete source against a concrete relabelled target. -/
theorem validate_layout_spec_witness : validate_layout dC1 dC1mk = .ok () :=
  (validate_layout_spec dC1 dC1mk).1 rfl

/-- C2 (failing-input evaluation): on a disk whose only partition is
non-source with number 7, `remove_partition` finds it (it is non-source),
returns `Ok`, yet leaves the disk entirely unchanged: the index sentinel `0`
that means "source partition, keep in place" collides with a genuine index 0,
so the non-source head partition is never dropped, contradicting the claim and
the function's own documentation. -/
theorem remove_partition_nonsource_head_kept :
    (get_partition_mut dC2 7).map (fun p => p.is_source) = some false
    ∧ remove_partition dC2 7 = (.ok (), dC2)
    ∧ dC2.partitions.length = 1 := by decide

/-- C5 (failing-input evaluation): when the move target is left of the
current start by more than the current end sector, the unsigned end-sector
subtraction in `move_partition` underflows and the code aborts (debug-build
panic) instead of returning `PartitionOOB` as the claim requires. -/
theorem move_partition_underflow_panics :
    get_partition_mut dC5 1 = some pC5
    ∧ 10 < pC5.start_sector
    ∧ pC5.end_sector < pC5.start_sector - 10
    ∧ move_partition dC5 1 10 = .panic := by decide

/-- C3: `overlaps_region` reports some non-`remove` partition exactly when
one conflicts with `[start, end_]` under the interval test
NOT (end < p.start OR start > p.end) (the two tests agree for start ≤ end_),
the reported number belongs to such a partition, and
`overlaps_region_excluding` is the same search with the partitions carrying
the excluded number filtered out. -/
theorem overlaps_region_spec (d : Disk) (start end_ : Nat) (h : start ≤ end_) :
    ((overlaps_region d start end_).isSome = true ↔
      ∃ p ∈ d.partitions, p.remove = false
        ∧ ¬(end_ < p.start_sector ∨ start > p.end_sector))
    ∧ (∀ k, overlaps_region d start end_ = some k →
        ∃ p ∈ d.partitions, p.remove = false
          ∧ ¬(end_ < p.start_sector ∨ start > p.end_sector) ∧ p.number = k)
    ∧ (∀ exclude, overlaps_region_excluding d start end_ exclude =
        overlaps_region
          { d with partitions := d.partitions.filter (fun p => p.number != exclude) }
          start end_) := by
  refine ⟨?_, ?_, ?_⟩
  · rw [overlaps_region, Option.isSome_map', List.find?_isSome]
    constructor
    · rintro ⟨x, hmem, hpred⟩
      rw [List.mem_filter] at hmem
      exact ⟨x, hmem.1, by simpa using hmem.2,
        (overlapsPred_iff start end_ x h).mp hpred⟩
    · rintro ⟨p, hp, hrem, hov⟩
      exact ⟨p, List.mem_filter.mpr ⟨hp, by simp [hrem]⟩,
        (overlapsPred_iff start end_ p h).mpr hov⟩
  · intro k hk
    rw [overlaps_region, Option.map_eq_some'] at hk
    obtain ⟨p, hfind, hnum⟩ := hk
    have hmem := List.mem_of_find?_eq_some hfind
    have hpred := List.find?_some hfind
    rw [List.mem_filter] at hmem
    exact ⟨p, hmem.1, by simpa using hmem.2,
      (overlapsPred_iff start end_ p h).mp hpred, hnum⟩
  · intro exclude
    simp only [overlaps_region_excluding, overlaps_region]
    rw [filter_remove_and_number]

/-- Witness for C3: partition 1 of `dC3` conflicts with the range 0..150. -/
theorem overlaps_region_spec_witness : (overlaps_region dC3 0 150).isSome = true :=
  ((overlaps_region_spec dC3 0 150 (by decide)).1).mpr
    ⟨pSample 1 0 100 true, by decide, by decide, by decide⟩

/-- C4 (counterexample): a successful resize of partition 1 of `dC4` to
length 30000 sets its `end_sector` to `start_sector + length = 32048`, not to
`start_sector + length - 1` as the claim requires. -/
theorem resize_partition_end_not_minus_one :
    resize_partition dC4 1 30000 = .done (.ok (), dC4after)
    ∧ (get_partition_mut dC4after 1).map (fun p => p.end_sector) = some (2048 + 30000)
    ∧ (get_partition_mut dC4after 1).map (fun p => p.end_sector) ≠ some (2048 + 30000 - 1) := by
  decide

/-- C4 (amended): a successful `resize_partition(n, length)` sets the
partition's `end_sector` to `start_sector + length` (the source's exclusive
convention), leaving every other field of that partition alone. -/
theorem resize_partition_sets_end (d : Disk) (n : Int) (length : Nat)
    (d' : Disk) (p : PartitionInfo)
    (hfind : get_partition_mut d n = some p)
    (hres : resize_partition d n length = .done (.ok (), d')) :
    get_partition_mut d' n = some { p with end_sector := p.start_sector + length } := by
  simp only [resize_partition, hfind, addU64, U64LIMIT] at hres
  split at hres
  · exact Run.noConfusion hres
  · split at hres
    · simp at hres
    · split at hres
      · exact Run.noConfusion hres
      · rename_i end_ heq
        split at hres
        · simp at hres
        · split at heq
          · injection heq with hend
            subst hend
            injection hres with h
            injection h with h1 h2
            subst h2
            simp only [get_partition_mut]
            rw [find?_modifyFirst (fun part => part.number == n)
              (fun q => { q with end_sector := p.start_sector + length }) (fun x => rfl)]
            rw [show d.partitions.find? (fun part => part.number == n) = some p from hfind]
            rfl
          · exact Run.noConfusion heq

/-- Witness for the amended C4 at the concrete resize of
`resize_partition_end_not_minus_one`. -/
theorem resize_partition_sets_end_witness :
    get_partition_mut dC4after 1 = some { pC4 with end_sector := pC4.start_sector + 30000 } :=
  resize_partition_sets_end dC4 1 30000 dC4after pC4 (by decide) (by decide)

/-- C6: whenever `resize_partition` or `move_partition` fails with
`SectorOverlaps`, every partition's endpoints are exactly as before the call
(resize rolls its provisional `end_sector` mutation back; move has not yet
mutated anything). -/
theorem sector_overlaps_leaves_disk_unchanged (d : Disk) (n : Int)
    (length start : Nat) (id : Int) :
    (∀ d', resize_partition d n length = .done (.error (.SectorOverlaps id), d') →
        d'.partitions.map (fun p => (p.start_sector, p.end_sector)) =
          d.partitions.map (fun p => (p.start_sector, p.end_sector)))
    ∧ (∀ d', move_partition d n start = .done (.error (.SectorOverlaps id), d') →
        d'.partitions.map (fun p => (p.start_sector, p.end_sector)) =
          d.partitions.map (fun p => (p.start_sector, p.end_sector))) := by
  constructor
  · intro d' hres
    rcases hfind : get_partition_mut d n with - | p
    · simp only [resize_partition, hfind] at hres
      split at hres
      · exact Run.noConfusion hres
      · split at hres
        · simp at hres
        · simp at hres
    · simp only [resize_partition, hfind, addU64, U64LIMIT] at hres
      split at hres
      · exact Run.noConfusion hres
      · split at hres
        · simp at hres
        · split at hres
          · exact Run.noConfusion hres
          · rename_i end_ heq
            split at hres
            · injection hres with h
              injection h with h1 h2
              subst h2
              simp only [modifyFirst_restore n end_ p d.partitions hfind]
            · simp at hres
  · intro d' hres
    rcases hfind : get_partition_mut d n with - | p
    · simp only [move_partition, hfind] at hres
      simp at hres
    · simp only [move_partition, hfind, addU64, subU64, U64LIMIT] at hres
      split at hres
      · simp at hres
      · split at hres
        · exact Run.noConfusion hres
        · rename_i end_ heq
          split at hres
          · injection hres with h
            injection h with h1 h2
            subst h2
            rfl
          · simp at hres

/-- Witness for C6: a concrete resize of `dC6` that collides with its second
partition fails with `SectorOverlaps 2` and hands back the unchanged disk. -/
theorem sector_overlaps_leaves_disk_unchanged_witness :
    resize_partition dC6 1 35000 = .done (.error (.SectorOverlaps 2), dC6)
    ∧ dC6.partitions.map (fun p => (p.start_sector, p.end_sector)) =
        dC6.partitions.map (fun p => (p.start_sector, p.end_sector)) :=
  ⟨by decide, (sector_overlaps_leaves_disk_unchanged dC6 1 35000 0 2).1 dC6 (by decide)⟩

/-- C7: with an MSDOS table, once the overlap and bound checks pass,
`add_partition` fails with `PrimaryPartitionsExceeded` exactly under the
quota predicate (primaries: P = 4 or P = 3 with a logical present; logicals:
P = 4); concretely, four primaries fit on an empty MSDOS disk and a fifth
fails, and after three primaries plus one logical a fourth primary fails. -/
theorem add_partition_msdos_quota (d : Disk) (b : PartitionBuilder)
    (ht : d.table_type = some .Msdos)
    (hov : overlaps_region d b.start_sector b.end_sector = none)
    (hsz : b.end_sector ≤ d.size) :
    ((add_partition d b).1 = .error .PrimaryPartitionsExceeded ↔
      (if b.part_type = .Primary then
        (get_partition_type_count d).1 = 4
          ∨ ((get_partition_type_count d).1 = 3 ∧ 1 ≤ (get_partition_type_count d).2)
      else (get_partition_type_count d).1 = 4))
    ∧ addAllOk emptyMsdos fourPrimaries = true
    ∧ (add_partition (addSeq emptyMsdos fourPrimaries) (pbAt 50000 54000 .Primary)).1
        = .error .PrimaryPartitionsExceeded
    ∧ addAllOk emptyMsdos threePlusLogical = true
    ∧ (add_partition (addSeq emptyMsdos threePlusLogical) (pbAt 50000 54000 .Primary)).1
        = .error .PrimaryPartitionsExceeded := by
  refine ⟨?_, by decide, by decide, by decide, by decide⟩
  simp only [add_partition, hov, ht]
  rw [if_neg (show ¬ d.size < b.end_sector by omega)]
  by_cases hp : b.part_type = .Primary
  · rw [if_pos hp, if_pos (show (b.part_type == PartitionType.Primary) = true by simp [hp])]
    by_cases hc : ((get_partition_type_count d).1 == 4
        || ((get_partition_type_count d).1 == 3 && (get_partition_type_count d).2 != 0)) = true
    · rw [if_pos hc]
      simp only [Bool.or_eq_true, Bool.and_eq_true, beq_iff_eq, bne_iff_ne] at hc
      constructor
      · intro _
        omega
      · intro _
        rfl
    · rw [if_neg hc]
      simp only [Bool.or_eq_true, Bool.and_eq_true, beq_iff_eq, bne_iff_ne] at hc
      constructor
      · intro h
        exact absurd h (by simp)
      · intro h
        omega
  · rw [if_neg hp, if_neg (show ¬ (b.part_type == PartitionType.Primary) = true by simp [hp])]
    by_cases hc : ((get_partition_type_count d).1 == 4) = true
    · rw [if_pos hc]
      simp only [beq_iff_eq] at hc
      constructor
      · intro _
        exact hc
      · intro _
        rfl
    · rw [if_neg hc]
      simp only [beq_iff_eq] at hc
      constructor
      · intro h
        exact absurd h (by simp)
      · intro h
        exact absurd h hc

/-- Witness for C7: on the MSDOS disk already holding four primaries, the
quota equivalence yields `PrimaryPartitionsExceeded` for a fifth primary. -/
theorem add_partition_msdos_quota_witness :
    (add_partition (addSeq emptyMsdos fourPrimaries) (pbAt 50000 54000 .Primary)).1
      = .error .PrimaryPartitionsExceeded := by
  have h := add_partition_msdos_quota (addSeq emptyMsdos fourPrimaries)
    (pbAt 50000 54000 .Primary) (by decide) (by decide) (by decide)
  apply h.1.mpr
  rw [if_pos (show (pbAt 50000 54000 PartitionType.Primary).part_type = .Primary from rfl)]
  decide

theorem diffCreates_done (l : List PartitionInfo)
    (hl : ∀ p ∈ l, p.is_source = false ∧ p.filesystem ≠ none) :
    diffCreates l = .done (l.map createOf) := by
  induction l with
  | nil => rfl
  | cons p ps ih =>
    obtain ⟨hsrc, hfs⟩ := hl p (List.mem_cons_self p ps)
    obtain ⟨fs, hfseq⟩ := Option.ne_none_iff_exists'.mp hfs
    have ihp := ih (fun q hq => hl q (List.mem_cons_of_mem p hq))
    simp [diffCreates, hsrc, hfseq, ihp, createOf]

/-- C8 (counterexample): a target with `mklabel = true` whose partition list
contains a source-flagged partition drives `diff` into `unreachable!`
(modelled `panic`), not into the `Ok` the claim promises. -/
theorem diff_mklabel_source_partition_panics : diff sC8 tC8bad = .panic := by decide

/-- C8 (amended): when the target requests a fresh label and every target
partition is non-source and carries a filesystem, `diff` returns `Ok` with
`mklabel = source.table_type`, no removals, no changes, and one create per
target partition, in order, copying start, end, filesystem, type and flags. -/
theorem diff_mklabel_spec (source target : Disk)
    (hmk : target.mklabel = true)
    (hparts : ∀ p ∈ target.partitions, p.is_source = false ∧ p.filesystem ≠ none) :
    diff source target = .done (.ok
      { mklabel := source.table_type
        remove_partitions := []
        change_partitions := []
        create_partitions := target.partitions.map createOf }) := by
  simp [diff, validate_layout, hmk, diffCreates_done target.partitions hparts]

/-- Witness for the amended C8 at a concrete relabelled target. -/
theorem diff_mklabel_spec_witness :
    diff sC8 tC8ok = .done (.ok
      { mklabel := some .Gpt
        remove_partitions := []
        change_partitions := []
        create_partitions := tC8ok.partitions.map createOf }) :=
  diff_mklabel_spec sC8 tC8ok rfl (by decide)

theorem remove_partition_preserves_mklabel (d : Disk) (n : Int) :
    ((remove_partition d n).2).mklabel = d.mklabel := by
  unfold remove_partition
  split
  · rfl
  · split
    · rfl
    · split <;> rfl

theorem remove_partition_empty (d : Disk) (n : Int) (h : d.partitions = []) :
    (remove_partition d n).2 = d := by
  unfold remove_partition
  simp [h]

theorem resize_partition_preserves_mklabel (d : Disk) (n : Int) (length : Nat)
    (r : Except DiskError Unit) (d' : Disk)
    (hres : resize_partition d n length = .done (r, d')) : d'.mklabel = d.mklabel := by
  rcases hfind : get_partition_mut d n with - | p
  · simp only [resize_partition, hfind] at hres
    split at hres
    · exact Run.noConfusion hres
    · split at hres <;>
      · injection hres with hh
        injection hh with h1 h2
        subst h2
        rfl
  · simp only [resize_partition, hfind, addU64, U64LIMIT] at hres
    split at hres
    · exact Run.noConfusion hres
    · split at hres
      · injection hres with hh
        injection hh with h1 h2
        subst h2
        rfl
      · split at hres
        · exact Run.noConfusion hres
        · rename_i end_ heq
          split at hres <;>
          · injection hres with hh
            injection hh with h1 h2
            subst h2
            rfl

theorem resize_partition_empty (d : Disk) (n : Int) (length : Nat)
    (r : Except DiskError Unit) (d' : Disk) (h : d.partitions = [])
    (hres : resize_partition d n length = .done (r, d')) : d' = d := by
  have hg : get_partition_mut d n = none := by simp [get_partition_mut, h]
  simp only [resize_partition, hg] at hres
  split at hres
  · exact Run.noConfusion hres
  · split at hres <;>
    · injection hres with hh
      injection hh with h1 h2
      exact h2.symm

theorem move_partition_preserves_mklabel (d : Disk) (n : Int) (start : Nat)
    (r : Except DiskError Unit) (d' : Disk)
    (hres : move_partition d n start = .done (r, d')) : d'.mklabel = d.mklabel := by
  rcases hfind : get_partition_mut d n with - | p
  · simp only [move_partition, hfind] at hres
    injection hres with hh
    injection hh with h1 h2
    subst h2
    rfl
  · simp only [move_partition, hfind, addU64, subU64, U64LIMIT] at hres
    split at hres
    · injection hres with hh
      injection hh with h1 h2
      subst h2
      rfl
    · split at hres
      · exact Run.noConfusion hres
      · rename_i end_ heq
        split at hres <;>
        · injection hres with hh
          injection hh with h1 h2
          subst h2
          rfl

theorem move_partition_empty (d : Disk) (n : Int) (start : Nat)
    (r : Except DiskError Unit) (d' : Disk) (h : d.partitions = [])
    (hres : move_partition d n start = .done (r, d')) : d' = d := by
  have hg : get_partition_mut d n = none := by simp [get_partition_mut, h]
  simp only [move_partition, hg] at hres
  injection hres with hh
  injection hh with h1 h2
  exact h2.symm

theorem format_partition_preserves_mklabel (d : Disk) (n : Int) (fs : FileSystemType) :
    ((format_partition d n fs).2).mklabel = d.mklabel := by
  unfold format_partition
  split <;> rfl

theorem format_partition_empty (d : Disk) (n : Int) (fs : FileSystemType)
    (h : d.partitions = []) : (format_partition d n fs).2 = d := by
  have hg : get_partition_mut d n = none := by simp [get_partition_mut, h]
  simp [format_partition, hg]

/-- C9 (counterexample): right after `mklabel`, a single `add_partition`
succeeds and leaves a disk with `mklabel = true` and a non-empty partition
list, so the invariant is not preserved by every builder operation. -/
theorem mklabel_invariant_broken_by_add :
    (add_partition (mklabel dC9 .Gpt) bC9).1 = .ok ()
    ∧ ((add_partition (mklabel dC9 .Gpt) bC9).2).mklabel = true
    ∧ ((add_partition (mklabel dC9 .Gpt) bC9).2).partitions = [bC9.build] := by decide

/-- C9 (amended): `mklabel` establishes "mklabel implies no partitions", and
`remove_partition`, `resize_partition`, `move_partition` and
`format_partition` preserve it; `add_partition` does not (see the
counterexample), so the invariant does not survive arbitrary builder
sequences. -/
theorem mklabel_invariant_amended (d : Disk) (kind : PartitionTable) (n : Int)
    (length start : Nat) (fs : FileSystemType) :
    ((mklabel d kind).mklabel = true ∧ (mklabel d kind).partitions = [])
    ∧ ((d.mklabel = true → d.partitions = []) →
        ((((remove_partition d n).2).mklabel = true →
            ((remove_partition d n).2).partitions = [])
        ∧ (∀ r d', resize_partition d n length = .done (r, d') →
            d'.mklabel = true → d'.partitions = [])
        ∧ (∀ r d', move_partition d n start = .done (r, d') →
            d'.mklabel = true → d'.partitions = [])
        ∧ (((format_partition d n fs).2).mklabel = true →
            ((format_partition d n fs).2).partitions = []))) := by
  refine ⟨⟨rfl, rfl⟩, ?_⟩
  intro hinv
  refine ⟨?_, ?_, ?_, ?_⟩
  · intro hm
    have hdm : d.mklabel = true := by
      rw [← remove_partition_preserves_mklabel d n]
      exact hm
    have hp := hinv hdm
    rw [remove_partition_empty d n hp]
    exact hp
  · intro r d' hres hm
    have hdm : d.mklabel = true := by
      rw [← resize_partition_preserves_mklabel d n length r d' hres]
      exact hm
    have hp := hinv hdm
    rw [resize_partition_empty d n length r d' hp hres]
    exact hp
  · intro r d' hres hm
    have hdm : d.mklabel = true := by
      rw [← move_partition_preserves_mklabel d n start r d' hres]
      exact hm
    have hp := hinv hdm
    rw [move_partition_empty d n start r d' hp hres]
    exact hp
  · intro hm
    have hdm : d.mklabel = true := by
      rw [← format_partition_preserves_mklabel d n fs]
      exact hm
    have hp := hinv hdm
    rw [format_partition_empty d n fs hp]
    exact hp

/-- Witness for the amended C9 on a freshly relabelled empty disk. -/
theorem mklabel_invariant_amended_witness :
    ((remove_partition dC9mk 1).2).partitions = [] :=
  ((mklabel_invariant_amended dC9mk .Gpt 1 30000 100 .Ext4).2 (fun _ => rfl)).1 (by decide)

/-- C10: when the requested start equals the partition's current start,
`move_partition` returns `Ok` immediately, before any overlap check, and the
disk (every field, every partition) is left untouched. -/
theorem move_partition_noop_same_start (d : Disk) (n : Int) (start : Nat)
    (p : PartitionInfo) (hfind : get_partition_mut d n = some p)
    (hs : start = p.start_sector) :
    move_partition d n start = .done (.ok (), d) := by
  unfold move_partition
  simp [hfind, hs]

/-- Witness for C10 on a disk whose two partitions overlap each other, so the
skipped overlap check would have fired. -/
theorem move_partition_noop_same_start_witness :
    move_partition dC10 1 0 = .done (.ok (), dC10)
    ∧ overlaps_region_excluding dC10 0 100 1 = some 2 :=
  ⟨move_partition_noop_same_start dC10 1 0 pC10 (by decide) (by decide), by decide⟩

end Distinst
